import Mathlib

/-!
Shallow embedding of the generic CRUD data-access and application-service
layer of the `fastapi_auth_template` repository, instantiated at its single
entity (the user table), together with theorems settling the specification
claims about it.

The persistent store is modelled as the list of committed rows of the user
table (`List UserModel`).  Repository operations are the list semantics of
the SQL statements built in `src/base/repository.py`; service operations
(`src/base/service.py`, `src/modules/users/service.py`,
`src/modules/auth/services/auth_service.py`) return an `Except` result
together with the committed state after the call: a service that raises
before committing leaves the committed state unchanged (the session is
rolled back on scope exit).
-/

/-- Exceptions visible in the embedded layer: the domain exceptions of
`src/core/exceptions.py` (`NotFoundException`, `ConflictException` wrapping
its cause) and the store/ORM errors (`IntegrityError` carrying the violated
constraint, `MultipleResultsFound`, `NoResultFound`). -/
inductive Exc where
  | notFound
  | conflict (cause : String)
  | integrityError (cause : String)
  | multipleResultsFound
  | noResultFound
deriving Repr, DecidableEq

namespace BaseRepository

/-- Semantics of SQLAlchemy `result.scalars().one_or_none()` on the rows a
statement produced: `none` for zero rows, the row for exactly one, and the
`MultipleResultsFound` error for two or more. -/
def one_or_none {α : Type} (rows : List α) : Except Exc (Option α) :=
  match rows with
  | [] => .ok none
  | [a] => .ok (some a)
  | _ => .error .multipleResultsFound

/-- `BaseRepository.get_one_or_none`: `select(model).filter(...)` followed by
`one_or_none()`.  The combined `filter`/`filter_by` criteria are modelled as
one boolean predicate on rows. -/
def get_one_or_none {α : Type} (pred : α → Bool) (db : List α) : Except Exc (Option α) :=
  one_or_none (db.filter pred)

/-- SQL semantics of `.limit(limit).offset(offset)` on a query result:
the offset is applied first, a `None` offset means 0, and a `None` limit
means no truncation. -/
def applyPagination {α : Type} (limit offset : Option Nat) (rows : List α) : List α :=
  let rest := rows.drop (offset.getD 0)
  match limit with
  | none => rest
  | some l => rest.take l

/-- `BaseRepository.get_all`: filtered select with `.offset(offset).limit(limit)`. -/
def get_all {α : Type} (offset limit : Nat) (pred : α → Bool) (db : List α) : List α :=
  ((db.filter pred).drop offset).take limit

/-- `BaseRepository.get_all_with_pagination_from_stmt`: applies pagination to
an already-composed statement (modelled as its result function on the table)
and returns the page. -/
def get_all_with_pagination_from_stmt {α : Type} (limit offset : Option Nat)
    (stmt : List α → List α) (db : List α) : List α :=
  applyPagination limit offset (stmt db)

/-- `BaseRepository.count`: `select(func.count()).select_from(model).filter(...)`. -/
def count {α : Type} (pred : α → Bool) (db : List α) : Nat :=
  (db.filter pred).length

/-- `BaseRepository.count_subquery`: `select(func.count()).select_from(stmt.subquery())`,
the number of rows of the composed statement with no pagination applied. -/
def count_subquery {α : Type} (stmt : List α → List α) (db : List α) : Nat :=
  (stmt db).length

/-- `BaseRepository.delete`: `delete(model).filter(...)` removes every
matching row and reports nothing. -/
def delete {α : Type} (pred : α → Bool) (db : List α) : List α :=
  db.filter (fun r => !pred r)

end BaseRepository

/-- `column.ilike(f"%{value}%")`: case-insensitive substring containment of
`pat` in `s`, with the case fold applied per character. -/
def ilikeContains (s pat : String) : Bool :=
  decide ((pat.toList.map Char.toLower) <:+: (s.toList.map Char.toLower))

/-- The user row (`UserModel` of `src/modules/users/models.py`).  The UUID
primary key and the creation timestamp are modelled as naturals; the
`updated_at` column is store-maintained and never read by the embedded
operations, so it is omitted. -/
structure UserModel where
  id : Nat
  email : String
  hashed_password : String
  is_admin : Bool
  created_at : Nat
deriving Repr, DecidableEq

/-- The text columns of the user table that `get_all_ilike`'s
`getattr(cls.model, field)` can name. -/
inductive UserTextField where
  | email
  | hashed_password
deriving Repr, DecidableEq

def UserTextField.get : UserTextField → UserModel → String
  | .email, u => u.email
  | .hashed_password, u => u.hashed_password

/-- `DEFAULT_QUERY_OFFSET` from `src/core/constants.py`. -/
def DEFAULT_QUERY_OFFSET : Nat := 0

/-- `DEFAULT_QUERY_LIMIT` from `src/core/constants.py`. -/
def DEFAULT_QUERY_LIMIT : Nat := 100

/-- `UsersQuerySchema`: pagination defaults from `PaginationBaseSchema`
(offset 0, limit 100), optional equality/substring filters, and the
sort-ascending flag (default `False`: newest first). -/
structure UsersQuerySchema where
  offset : Option Nat := some DEFAULT_QUERY_OFFSET
  limit : Option Nat := some DEFAULT_QUERY_LIMIT
  id : Option Nat := none
  email : Option String := none
  is_admin : Option Bool := none
  asc : Bool := false
deriving Repr, DecidableEq

/-- The `ORDER BY users.created_at` direction selected by the `asc` flag:
ascending for `asc = true`, descending otherwise. -/
def createdLE (ascFlag : Bool) (a b : UserModel) : Prop :=
  if ascFlag then a.created_at ≤ b.created_at else b.created_at ≤ a.created_at

instance (f : Bool) (a b : UserModel) : Decidable (createdLE f a b) :=
  match f with
  | true => inferInstanceAs (Decidable (a.created_at ≤ b.created_at))
  | false => inferInstanceAs (Decidable (b.created_at ≤ a.created_at))

instance (f : Bool) : IsTotal UserModel (createdLE f) := by
  constructor
  intro a b
  cases f <;> simp only [createdLE, if_true, if_false, Bool.false_eq_true] <;> omega

instance (f : Bool) : IsTrans UserModel (createdLE f) := by
  constructor
  intro a b c
  cases f <;> simp only [createdLE, if_true, if_false, Bool.false_eq_true] <;> omega

namespace UserRepository

/-- The WHERE clauses `UserRepository.get_stmt_by_query` attaches: an
`ilike` filter on `email` when the query's `email` is truthy (a `None` or
empty string adds no clause), and an `is_(True/False)` filter on `is_admin`
when it is not `None`.  The query's `id` field is never used there. -/
def queryPred (qp : UsersQuerySchema) (r : UserModel) : Bool :=
  (match qp.email with
   | some e => if e = "" then true else ilikeContains r.email e
   | none => true) &&
  (match qp.is_admin with
   | some b => r.is_admin == b
   | none => true)

/-- `UserRepository.get_stmt_by_query`: the composed statement — the rows
satisfying the query filters, ordered by `created_at` in the direction the
`asc` flag selects (modelled by a sort of the filtered rows). -/
def get_stmt_by_query (qp : UsersQuerySchema) (db : List UserModel) : List UserModel :=
  List.insertionSort (createdLE qp.asc) (db.filter (queryPred qp))

/-- The rows selected by `get_all_ilike` / `count_all_ilike` before
pagination: the other filters, ANDed with — when `search_fields` is
non-empty — the OR across the listed fields of the per-field case-insensitive
substring conditions. -/
def ilikeFilter (search_fields : List (UserTextField × String)) (pred : UserModel → Bool)
    (db : List UserModel) : List UserModel :=
  db.filter (fun r => pred r &&
    (search_fields.isEmpty || search_fields.any (fun fv => ilikeContains (fv.1.get r) fv.2)))

/-- `BaseRepository.get_all_ilike` at the user table. -/
def get_all_ilike (search_fields : List (UserTextField × String)) (offset limit : Nat)
    (pred : UserModel → Bool) (db : List UserModel) : List UserModel :=
  ((ilikeFilter search_fields pred db).drop offset).take limit

/-- `BaseRepository.count_all_ilike` at the user table: the same selection
with no pagination, counted. -/
def count_all_ilike (search_fields : List (UserTextField × String))
    (pred : UserModel → Bool) (db : List UserModel) : Nat :=
  (ilikeFilter search_fields pred db).length

end UserRepository

namespace HashService

/-- Truncation to a 32-bit word. -/
def w32 (n : Nat) : Nat := n % 4294967296

/-- 32-bit right rotation. -/
def rotr (x n : Nat) : Nat := w32 ((x >>> n) ||| (x <<< (32 - n)))

def bigSigma0 (x : Nat) : Nat := rotr x 2 ^^^ rotr x 13 ^^^ rotr x 22

def bigSigma1 (x : Nat) : Nat := rotr x 6 ^^^ rotr x 11 ^^^ rotr x 25

def smallSigma0 (x : Nat) : Nat := rotr x 7 ^^^ rotr x 18 ^^^ (x >>> 3)

def smallSigma1 (x : Nat) : Nat := rotr x 17 ^^^ rotr x 19 ^^^ (x >>> 10)

def chF (x y z : Nat) : Nat := (x &&& y) ^^^ ((x ^^^ 0xffffffff) &&& z)

def maj (x y z : Nat) : Nat := (x &&& y) ^^^ (x &&& z) ^^^ (y &&& z)

/-- The 64 SHA-256 round constants, written in decimal. -/
def roundK : List Nat :=
  [1116352408, 1899447441, 3049323471, 3921009573, 961987163, 1508970993,
   2453635748, 2870763221, 3624381080, 310598401, 607225278, 1426881987,
   1925078388, 2162078206, 2614888103, 3248222580, 3835390401, 4022224774,
   264347078, 604807628, 770255983, 1249150122, 1555081692, 1996064986,
   2554220882, 2821834349, 2952996808, 3210313671, 3336571891, 3584528711,
   113926993, 338241895, 666307205, 773529912, 1294757372, 1396182291,
   1695183700, 1986661051, 2177026350, 2456956037, 2730485921, 2820302411,
   3259730800, 3345764771, 3516065817, 3600352804, 4094571909, 275423344,
   430227734, 506948616, 659060556, 883997877, 958139571, 1322822218,
   1537002063, 1747873779, 1955562222, 2024104815, 2227730452, 2361852424,
   2428436474, 2756734187, 3204031479, 3329325298]

/-- The SHA-256 initial hash state, written in decimal. -/
def initH : List Nat :=
  [1779033703, 3144134277, 1013904242, 2773480762,
   1359893119, 2600822924, 528734635, 1541459225]

/-- SHA-256 padding of a byte sequence: `0x80`, zero bytes to 56 mod 64,
then the bit length as 8 big-endian bytes. -/
def padMessage (msg : List Nat) : List Nat :=
  let len := msg.length
  let zeros := (64 - ((len + 9) % 64)) % 64
  msg ++ [0x80] ++ List.replicate zeros 0 ++
    (List.range 8).map (fun i => ((8 * len) >>> (56 - 8 * i)) &&& 255)

/-- Groups consecutive 4-byte runs into big-endian 32-bit words. -/
def bytesToWords : List Nat → List Nat
  | b0 :: b1 :: b2 :: b3 :: rest =>
      ((b0 <<< 24) ||| (b1 <<< 16) ||| (b2 <<< 8) ||| b3) :: bytesToWords rest
  | _ => []

/-- Splits a word sequence into 16-word blocks (structurally, on a fuel
bound that the list length dominates). -/
def chunksOf16Aux : Nat → List Nat → List (List Nat)
  | 0, _ => []
  | _, [] => []
  | fuel + 1, l => l.take 16 :: chunksOf16Aux fuel (l.drop 16)

/-- Splits a word sequence into 16-word blocks. -/
def chunksOf16 (l : List Nat) : List (List Nat) :=
  chunksOf16Aux l.length l

/-- Extends a 16-word block to the 64-word message schedule. -/
def extendMsg (ws : List Nat) : List Nat :=
  (List.range 48).foldl
    (fun acc _ =>
      let n := acc.length
      acc ++ [w32 (smallSigma1 (acc.getD (n - 2) 0) + acc.getD (n - 7) 0 +
                   smallSigma0 (acc.getD (n - 15) 0) + acc.getD (n - 16) 0)])
    ws

/-- One SHA-256 compression round on the 8-word working state. -/
def round (st : List Nat) (k w : Nat) : List Nat :=
  let a := st.getD 0 0
  let b := st.getD 1 0
  let c := st.getD 2 0
  let d := st.getD 3 0
  let e := st.getD 4 0
  let f := st.getD 5 0
  let g := st.getD 6 0
  let hh := st.getD 7 0
  let t1 := w32 (hh + bigSigma1 e + chF e f g + k + w)
  let t2 := w32 (bigSigma0 a + maj a b c)
  [w32 (t1 + t2), a, b, c, w32 (d + t1), e, f, g]

/-- Compresses one 16-word block into the running 8-word hash state. -/
def processBlock (hs : List Nat) (block : List Nat) : List Nat :=
  let w := extendMsg block
  let st := (roundK.zip w).foldl (fun st kw => round st kw.1 kw.2) hs
  (hs.zip st).map (fun p => w32 (p.1 + p.2))

/-- SHA-256 of a byte sequence, as the 8 words of the digest. -/
def sha256Words (msg : List Nat) : List Nat :=
  (chunksOf16 (bytesToWords (padMessage msg))).foldl processBlock initH

def hexChar (n : Nat) : Char :=
  if n < 10 then Char.ofNat (48 + n) else Char.ofNat (87 + n)

/-- Lowercase hexadecimal rendering of one 32-bit word. -/
def wordToHex (x : Nat) : List Char :=
  (List.range 8).map (fun i => hexChar ((x >>> (28 - 4 * i)) &&& 15))

/-- UTF-8 encoding of one code point (Python `str.encode()`). -/
def utf8Char (c : Char) : List Nat :=
  let n := c.toNat
  if n < 0x80 then [n]
  else if n < 0x800 then [0xc0 ||| (n >>> 6), 0x80 ||| (n &&& 0x3f)]
  else if n < 0x10000 then
    [0xe0 ||| (n >>> 12), 0x80 ||| ((n >>> 6) &&& 0x3f), 0x80 ||| (n &&& 0x3f)]
  else
    [0xf0 ||| (n >>> 18), 0x80 ||| ((n >>> 12) &&& 0x3f),
     0x80 ||| ((n >>> 6) &&& 0x3f), 0x80 ||| (n &&& 0x3f)]

/-- Python `input.encode()`: the UTF-8 bytes of the string. -/
def encode (s : String) : List Nat :=
  (s.toList.map utf8Char).join

/-- `HashService.generate` (`src/core/services/hash_service.py`):
`hashlib.sha256(input.encode()).hexdigest()`, the lowercase hex SHA-256
digest of the UTF-8 bytes of the input. -/
def generate (input : String) : String :=
  ⟨((sha256Words (encode input)).map wordToHex).join⟩

end HashService

/-- A field of a pydantic update schema: never passed (`unset`), passed
explicitly as `None` (`null`), or passed with a value.  `model_dump` with
`exclude_unset=True, exclude_none=True` keeps exactly the `value` fields. -/
inductive FieldPatch (β : Type) where
  | unset
  | null
  | value (v : β)
deriving Repr, DecidableEq

/-- The contribution of one field to the dumped update dict under
`exclude_unset=True, exclude_none=True`. -/
def FieldPatch.dump {β : Type} : FieldPatch β → Option β
  | .value v => some v
  | _ => none

/-- A keyword argument passed to a pydantic constructor: the field is set,
with value `None` or `v`. -/
def optPatch {β : Type} : Option β → FieldPatch β
  | none => .null
  | some v => .value v

/-- `UserUpdateRepositoryAdminSchema`: the update-input the user service
hands to the repository — optional `email`, `hashed_password`, `is_admin`. -/
structure UserUpdateRepositoryAdminSchema where
  email : FieldPatch String := .unset
  hashed_password : FieldPatch String := .unset
  is_admin : FieldPatch Bool := .unset
deriving Repr, DecidableEq

/-- The row produced by `update(model).where(...).values(**update_data)` for
one matched row: exactly the dumped (explicitly-set, non-null) fields are
overwritten, every other column keeps its stored value. -/
def applyUpdate (s : UserUpdateRepositoryAdminSchema) (r : UserModel) : UserModel :=
  { r with
    email := s.email.dump.getD r.email
    hashed_password := s.hashed_password.dump.getD r.hashed_password
    is_admin := s.is_admin.dump.getD r.is_admin }

/-- Whether some row of the table already carries this email
(the `unique=True` constraint on `users.email`). -/
def emailTaken (e : String) (db : List UserModel) : Bool :=
  db.any (fun r => r.email == e)

/-- The store invariant enforced by the unique constraint on `users.email`. -/
def uniqueEmails : List UserModel → Bool
  | [] => true
  | r :: rest => !emailTaken r.email rest && uniqueEmails rest

/-- The store invariant enforced by the primary key on `users.id`. -/
def uniqueIds : List UserModel → Bool
  | [] => true
  | r :: rest => !rest.any (fun s => s.id == r.id) && uniqueIds rest

namespace UserRepository

/-- `BaseRepository.create` at the user table: `insert(model).values(...)`.
The store raises `IntegrityError` when the new row collides with an existing
primary key or unique email; otherwise the row is added and returned. -/
def create (row : UserModel) (db : List UserModel) : Except Exc (UserModel × List UserModel) :=
  if db.any (fun r => r.id == row.id) then .error (.integrityError "pk_users")
  else if emailTaken row.email db then .error (.integrityError "uq_users_email")
  else .ok (row, db ++ [row])

/-- `BaseRepository.update` at the user table:
`update(model).where(*where).values(**update_data).returning(model)` followed
by `result.scalars().one()`.  The dumped patch (explicitly-set non-null
fields) is applied to every row matching the WHERE predicate; the store
raises `IntegrityError` when the updated table would violate the unique
email constraint, and `one()` demands exactly one returned row. -/
def update (wpred : UserModel → Bool) (obj_in : UserUpdateRepositoryAdminSchema)
    (db : List UserModel) : Except Exc (UserModel × List UserModel) :=
  let newDb := db.map (fun r => if wpred r then applyUpdate obj_in r else r)
  if !uniqueEmails newDb then .error (.integrityError "uq_users_email")
  else
    match (db.filter wpred).map (applyUpdate obj_in) with
    | [] => .error .noResultFound
    | [u] => .ok (u, newDb)
    | _ => .error .multipleResultsFound

end UserRepository

/-- `UserGetAdminSchema`: the single-entity output shape. -/
structure UserGetAdminSchema where
  id : Nat
  email : String
  is_admin : Bool
deriving Repr, DecidableEq

/-- `UserGetAdminSchema.model_validate` on a stored row. -/
def UserGetAdminSchema.model_validate (u : UserModel) : UserGetAdminSchema :=
  ⟨u.id, u.email, u.is_admin⟩

/-- `UserListGetSchema` (over `DataListReadBaseSchema`): total matching count
ignoring pagination, the page of records, and the `asc` field the base
schema defaults to `true`. -/
structure UserListGetSchema where
  count : Nat
  data : List UserGetAdminSchema
  asc : Bool := true
deriving Repr, DecidableEq

namespace BaseService

/-- `BaseService.get_by_id` at the user entity:
`repository.get_one_or_none(id=id)`, then `NotFoundException` when no row
matched, else the validated output schema. -/
def get_by_id (db : List UserModel) (id : Nat) : Except Exc UserGetAdminSchema :=
  match BaseRepository.get_one_or_none (fun r => r.id == id) db with
  | .error e => .error e
  | .ok none => .error .notFound
  | .ok (some u) => .ok (UserGetAdminSchema.model_validate u)

/-- `BaseService.get_all` at the user entity: composes the statement via
`get_stmt_by_query`, fetches the page via
`get_all_with_pagination_from_stmt`, raises `NotFoundException` when the
page is empty, and otherwise pairs the page with `count_subquery` over the
same unpaginated statement. -/
def get_all (db : List UserModel) (qp : UsersQuerySchema) : Except Exc UserListGetSchema :=
  let stmt := UserRepository.get_stmt_by_query qp
  let objects_db := BaseRepository.get_all_with_pagination_from_stmt qp.limit qp.offset stmt db
  if objects_db.isEmpty then .error .notFound
  else
    .ok { count := BaseRepository.count_subquery stmt db,
          data := objects_db.map UserGetAdminSchema.model_validate }

/-- `BaseService.update` at the user entity: existence check via
`get_by_id` (raising `NotFoundException`), then `repository.update` scoped
to identifier equality, commit, and output validation; an `IntegrityError`
is re-raised as `ConflictException` wrapping its cause and nothing is
committed. -/
def update (db : List UserModel) (id : Nat) (data : UserUpdateRepositoryAdminSchema) :
    Except Exc UserGetAdminSchema × List UserModel :=
  match get_by_id db id with
  | .error e => (.error e, db)
  | .ok _ =>
    match UserRepository.update (fun r => r.id == id) data db with
    | .error (.integrityError c) => (.error (.conflict c), db)
    | .error e => (.error e, db)
    | .ok (u, newDb) => (.ok (UserGetAdminSchema.model_validate u), newDb)

/-- `BaseService.delete` at the user entity: existence check via `get_by_id`
(raising `NotFoundException`), then `repository.delete(id=id)` and commit. -/
def delete (db : List UserModel) (id : Nat) : Except Exc Unit × List UserModel :=
  match get_by_id db id with
  | .error e => (.error e, db)
  | .ok _ => (.ok (), BaseRepository.delete (fun r => r.id == id) db)

end BaseService

/-- `UserCreateSchema`: registration input — email and plain password. -/
structure UserCreateSchema where
  email : String
  password : String
deriving Repr, DecidableEq

/-- The update-input of `UserService.update`: a plain `UserUpdateSchema`
(optional email and password) or a `UserUpdateAdminSchema` which additionally
carries the required `is_admin` flag. -/
inductive UserUpdateInput where
  | plain (email : Option String) (password : Option String)
  | admin (email : Option String) (password : Option String) (is_admin : Bool)
deriving Repr, DecidableEq

def UserUpdateInput.email : UserUpdateInput → Option String
  | .plain e _ => e
  | .admin e _ _ => e

def UserUpdateInput.password : UserUpdateInput → Option String
  | .plain _ p => p
  | .admin _ p _ => p

namespace UserService

/-- `UserService.create`: hashes the password, builds
`UserCreateRepositorySchema(email=..., hashed_password=...)`, inserts it and
commits; an `IntegrityError` is re-raised as `ConflictException` wrapping
its cause and nothing is committed.  The store-assigned id and creation
timestamp are passed explicitly. -/
def create (db : List UserModel) (data : UserCreateSchema) (newId created_at : Nat) :
    Except Exc UserGetAdminSchema × List UserModel :=
  let hashed_password := HashService.generate data.password
  let row : UserModel :=
    { id := newId, email := data.email, hashed_password, is_admin := false, created_at }
  match UserRepository.create row db with
  | .error (.integrityError c) => (.error (.conflict c), db)
  | .error e => (.error e, db)
  | .ok (u, newDb) => (.ok (UserGetAdminSchema.model_validate u), newDb)

/-- The repository patch `UserService.update` builds: the password is
hashed only when truthy (non-`None` and non-empty); the
`UserUpdateRepositoryAdminSchema` constructor is called with every keyword
passed explicitly — `is_admin` is the input's flag for an admin schema and
`None` for a plain one. -/
def updateObjIn (data : UserUpdateInput) : UserUpdateRepositoryAdminSchema :=
  let hashed_password : Option String :=
    match data.password with
    | some pw => if pw = "" then none else some (HashService.generate pw)
    | none => none
  { email := optPatch data.email,
    hashed_password := optPatch hashed_password,
    is_admin := optPatch (match data with
      | .admin _ _ b => some b
      | .plain _ _ => none) }

/-- `UserService.update`: existence check via `get_by_id` (raising
`NotFoundException`), then `UserRepository.update` with the built patch,
scoped to identifier equality, and commit, with `IntegrityError` re-raised
as `ConflictException` wrapping its cause. -/
def update (db : List UserModel) (user_id : Nat) (data : UserUpdateInput) :
    Except Exc UserGetAdminSchema × List UserModel :=
  match BaseService.get_by_id db user_id with
  | .error e => (.error e, db)
  | .ok _ =>
    match UserRepository.update (fun r => r.id == user_id) (updateObjIn data) db with
    | .error (.integrityError c) => (.error (.conflict c), db)
    | .error e => (.error e, db)
    | .ok (u, newDb) => (.ok (UserGetAdminSchema.model_validate u), newDb)

end UserService

/-- `UserLoginSchema`: login input — email and plain password. -/
structure UserLoginSchema where
  email : String
  password : String
deriving Repr, DecidableEq

/-- Modelled from the spec: JWT issuance (`JWTService.create_tokens`,
whose module is not part of the sources) is an excluded black-box
collaborator; the tokens are represented by the user id they are minted
for. -/
structure JWTGetSchema where
  user_id : Nat
deriving Repr, DecidableEq

/-- Modelled from the spec: mints the access/refresh token pair for a user
id; the token contents are outside the embedded core. -/
def JWTService.create_tokens (user_id : Nat) : JWTGetSchema :=
  ⟨user_id⟩

/-- The `filter_by` criteria `login` passes to `get_one_or_none`: equality
on the supplied email and on the hash of the supplied password. -/
def loginPred (schema : UserLoginSchema) (r : UserModel) : Bool :=
  r.email == schema.email && r.hashed_password == HashService.generate schema.password

/-- `AuthService.login`: hashes the supplied password, looks up
`get_one_or_none(email=..., hashed_password=...)`, raises
`NotFoundException` when nothing matched, and otherwise mints tokens for
the matched user's id. -/
def AuthService.login (db : List UserModel) (schema : UserLoginSchema) :
    Except Exc JWTGetSchema :=
  match BaseRepository.get_one_or_none (loginPred schema) db with
  | .error e => .error e
  | .ok none => .error .notFound
  | .ok (some u) => .ok (JWTService.create_tokens u.id)

/-- The page a service-level list call fetches: the composed user statement
with the query's pagination applied. -/
def pageOf (qp : UsersQuerySchema) (db : List UserModel) : List UserModel :=
  BaseRepository.get_all_with_pagination_from_stmt qp.limit qp.offset
    (UserRepository.get_stmt_by_query qp) db

/-- Sample stored user rows for the concrete scenarios. -/
def uA : UserModel := ⟨1, "a@x.com", "h1", false, 10⟩

def uAB : UserModel := ⟨2, "ab@x.com", "h2", false, 20⟩

def uB : UserModel := ⟨3, "b@x.com", "h3", false, 30⟩

/-- A list query asking for the second page of size 1. -/
def qpOff1 : UsersQuerySchema := { offset := some 1, limit := some 1 }

/-- A list query whose offset lies past every match. -/
def qpOff5 : UsersQuerySchema := { offset := some 5 }

/-- A list query asking for a window of size 2 starting at the second match. -/
def qpWin : UsersQuerySchema := { offset := some 1, limit := some 2 }

/-- A one-user table whose stored credential is the hash of `pw`. -/
def loginDb : List UserModel := [⟨1, "a@x.com", HashService.generate "pw", false, 0⟩]

instance {E A : Type} [DecidableEq E] [DecidableEq A] : DecidableEq (Except E A) := fun a b =>
  match a, b with
  | .ok x, .ok y => if h : x = y then .isTrue (by rw [h]) else .isFalse (by simp [h])
  | .error x, .error y => if h : x = y then .isTrue (by rw [h]) else .isFalse (by simp [h])
  | .ok _, .error _ => .isFalse (by simp)
  | .error _, .ok _ => .isFalse (by simp)

/-- Rows kept by `delete`'s complementary filter never match the deletion
criteria again. -/
theorem filter_of_filter_not {α : Type} (p : α → Bool) (l : List α) :
    (l.filter (fun a => !p a)).filter p = [] := by
  induction l with
  | nil => rfl
  | cons a t ih => by_cases h : p a <;> simp [h, ih]

/-- C4: `get_one_or_none` returns an explicit none result when zero rows
match, the single record when exactly one matches, and fails with
`MultipleResultsFound` (rather than returning none or a first row) when two
or more match. -/
theorem get_one_or_none_cardinality {α : Type} (pred : α → Bool) (db : List α) :
    (db.filter pred = [] → BaseRepository.get_one_or_none pred db = .ok none)
    ∧ (∀ a, db.filter pred = [a] → BaseRepository.get_one_or_none pred db = .ok (some a))
    ∧ (2 ≤ (db.filter pred).length →
        BaseRepository.get_one_or_none pred db = .error .multipleResultsFound) := by
  refine ⟨fun h => ?_, fun a h => ?_, fun h => ?_⟩
  · simp [BaseRepository.get_one_or_none, BaseRepository.one_or_none, h]
  · simp [BaseRepository.get_one_or_none, BaseRepository.one_or_none, h]
  · unfold BaseRepository.get_one_or_none BaseRepository.one_or_none
    cases hm : db.filter pred with
    | nil => rw [hm] at h; simp at h
    | cons a t =>
      cases t with
      | nil => rw [hm] at h; simp at h
      | cons b t2 => rfl

theorem get_one_or_none_cardinality_witness :
    BaseRepository.get_one_or_none (fun n => n == 5) [1, 2, 3] = .ok none
    ∧ BaseRepository.get_one_or_none (fun n => n == 2) [1, 2, 3] = .ok (some 2)
    ∧ BaseRepository.get_one_or_none (fun n => 1 < n) [1, 2, 3]
        = .error .multipleResultsFound :=
  ⟨(get_one_or_none_cardinality _ _).1 (by decide),
   (get_one_or_none_cardinality _ _).2.1 2 (by decide),
   (get_one_or_none_cardinality _ _).2.2 (by decide)⟩

/-- C7: the service-level delete fails with `NotFoundError` (and leaves the
store unchanged) when no record carries the identifier; when exactly one
does, it succeeds, the store afterwards holds exactly the rows not matching
the identifier, and a subsequent `get_by_id` on the same identifier fails
with `NotFoundError`. -/
theorem service_delete_spec (db : List UserModel) (id : Nat) :
    (db.filter (fun s => s.id == id) = [] →
        BaseService.delete db id = (.error .notFound, db))
    ∧ (∀ r, db.filter (fun s => s.id == id) = [r] →
        (BaseService.delete db id).1 = .ok ()
        ∧ (BaseService.delete db id).2 = db.filter (fun s => !(s.id == id))
        ∧ BaseService.get_by_id (BaseService.delete db id).2 id = .error .notFound) := by
  constructor
  · intro h
    simp [BaseService.delete, BaseService.get_by_id, BaseRepository.get_one_or_none,
      BaseRepository.one_or_none, h]
  · intro r h
    have hgb : BaseService.get_by_id db id = .ok (UserGetAdminSchema.model_validate r) := by
      simp [BaseService.get_by_id, BaseRepository.get_one_or_none,
        BaseRepository.one_or_none, h]
    refine ⟨?_, ?_, ?_⟩
    · simp [BaseService.delete, hgb]
    · simp [BaseService.delete, hgb, BaseRepository.delete]
    · have hdel : (BaseService.delete db id).2 = db.filter (fun s => !(s.id == id)) := by
        simp [BaseService.delete, hgb, BaseRepository.delete]
      rw [hdel]
      simp [BaseService.get_by_id, BaseRepository.get_one_or_none,
        BaseRepository.one_or_none, filter_of_filter_not]

theorem service_delete_spec_witness :
    (BaseService.delete [uA, uB] 3).1 = .ok ()
    ∧ BaseService.get_by_id (BaseService.delete [uA, uB] 3).2 3 = .error .notFound
    ∧ BaseService.delete [uA] 7 = (.error .notFound, [uA]) :=
  ⟨((service_delete_spec [uA, uB] 3).2 uB (by decide)).1,
   ((service_delete_spec [uA, uB] 3).2 uB (by decide)).2.2,
   (service_delete_spec [uA] 7).1 (by decide)⟩

/-- C10: omitted query parameters default to offset `DEFAULT_QUERY_OFFSET = 0`
and limit `DEFAULT_QUERY_LIMIT = 100` (both in `PaginationBaseSchema` and as
the repository `get_all` defaults), and a list call carrying those defaults
never returns more than 100 records. -/
theorem default_pagination_caps_page (db : List UserModel) (qp : UsersQuerySchema)
    (hoff : qp.offset = some DEFAULT_QUERY_OFFSET)
    (hlim : qp.limit = some DEFAULT_QUERY_LIMIT) :
    DEFAULT_QUERY_OFFSET = 0 ∧ DEFAULT_QUERY_LIMIT = 100
    ∧ ({} : UsersQuerySchema).offset = some 0
    ∧ ({} : UsersQuerySchema).limit = some 100
    ∧ (∀ res, BaseService.get_all db qp = .ok res → res.data.length ≤ 100)
    ∧ (∀ pred : UserModel → Bool,
        (BaseRepository.get_all DEFAULT_QUERY_OFFSET DEFAULT_QUERY_LIMIT pred db).length
          ≤ 100) := by
  refine ⟨rfl, rfl, rfl, rfl, ?_, ?_⟩
  · intro res hres
    simp only [BaseService.get_all] at hres
    split at hres
    · exact absurd hres (by simp)
    · have hd : res.data
          = (BaseRepository.get_all_with_pagination_from_stmt qp.limit qp.offset
              (UserRepository.get_stmt_by_query qp) db).map UserGetAdminSchema.model_validate := by
        cases hres
        rfl
      rw [hd, List.length_map]
      unfold BaseRepository.get_all_with_pagination_from_stmt BaseRepository.applyPagination
      rw [hlim]
      exact List.length_take_le _ _
  · intro pred
    exact List.length_take_le _ _

theorem default_pagination_caps_page_witness :
    ({} : UsersQuerySchema).offset = some 0
    ∧ ({} : UsersQuerySchema).limit = some 100
    ∧ (∀ res, BaseService.get_all [uA, uAB, uB] {} = .ok res → res.data.length ≤ 100) :=
  ⟨(default_pagination_caps_page [] {} rfl rfl).2.2.1,
   (default_pagination_caps_page [] {} rfl rfl).2.2.2.1,
   (default_pagination_caps_page [uA, uAB, uB] {} rfl rfl).2.2.2.2.1⟩

/-- A service list call whose fetched page is empty raises `NotFoundException`. -/
theorem get_all_eq_error (db : List UserModel) (qp : UsersQuerySchema)
    (h : pageOf qp db = []) : BaseService.get_all db qp = .error .notFound := by
  have h2 : BaseRepository.get_all_with_pagination_from_stmt qp.limit qp.offset
      (UserRepository.get_stmt_by_query qp) db = [] := h
  simp [BaseService.get_all, h2]

/-- A service list call whose fetched page is non-empty returns the page
paired with the unpaginated matching count. -/
theorem get_all_eq_ok (db : List UserModel) (qp : UsersQuerySchema)
    (h : pageOf qp db ≠ []) :
    BaseService.get_all db qp =
      .ok { count := (db.filter (UserRepository.queryPred qp)).length,
            data := (pageOf qp db).map UserGetAdminSchema.model_validate,
            asc := true } := by
  have h2 : (BaseRepository.get_all_with_pagination_from_stmt qp.limit qp.offset
      (UserRepository.get_stmt_by_query qp) db).isEmpty = false := by
    have hp : (pageOf qp db).isEmpty = false := by
      cases hq : pageOf qp db with
      | nil => exact absurd hq h
      | cons a t => rfl
    exact hp
  have hc : BaseRepository.count_subquery (UserRepository.get_stmt_by_query qp) db
      = (db.filter (UserRepository.queryPred qp)).length :=
    List.length_insertionSort _ _
  simp only [BaseService.get_all, h2, Bool.false_eq_true, if_false, hc]
  rfl

set_option maxRecDepth 4000

/-- C2: a service-level list call whose fetched page is empty fails with
`NotFoundError` (no list-result is returned) — even when the offset merely
lies past a non-empty match set — and otherwise returns the page together
with a count equal to the total number of records matching the same filter
predicate without pagination. -/
theorem service_get_all_empty_raises (db : List UserModel) (qp : UsersQuerySchema) :
    (pageOf qp db = [] → BaseService.get_all db qp = .error .notFound)
    ∧ (pageOf qp db ≠ [] →
        BaseService.get_all db qp =
          .ok { count := (db.filter (UserRepository.queryPred qp)).length,
                data := (pageOf qp db).map UserGetAdminSchema.model_validate,
                asc := true })
    ∧ (UserRepository.get_stmt_by_query qpOff5 [uA] ≠ []
        ∧ BaseService.get_all [uA] qpOff5 = .error .notFound) :=
  ⟨get_all_eq_error db qp, get_all_eq_ok db qp, by decide, by decide⟩

theorem service_get_all_empty_raises_witness :
    BaseService.get_all [uA, uAB, uB] ({} : UsersQuerySchema) =
      .ok { count := ([uA, uAB, uB].filter (UserRepository.queryPred {})).length,
            data := (pageOf {} [uA, uAB, uB]).map UserGetAdminSchema.model_validate,
            asc := true } :=
  (service_get_all_empty_raises [uA, uAB, uB] {}).2.1 (by decide)

/-- C3 counterexample: over a match set of size K = 1, the list call with
limit L = 1 and offset O = 1 does not return a list-result whose count is K
— it raises `NotFoundError` instead, so the claim's "count equals K
regardless of the values of L and O" fails at this input. -/
theorem get_all_window_cex :
    (UserRepository.get_stmt_by_query qpOff1 [uA]).length = 1
    ∧ qpOff1.limit = some 1 ∧ qpOff1.offset = some 1
    ∧ BaseService.get_all [uA] qpOff1 = .error .notFound := by
  refine ⟨by decide, rfl, rfl, by decide⟩

/-- C3 (amended): with limit L and offset O over a match set of size K, the
fetched page has exactly `min L (K - O)` records and is in the specified
sort order; when `min L (K - O) > 0` the call returns that page with
`count = K`, and when `min L (K - O) = 0` the call raises `NotFoundError`
instead of returning an empty list-result. -/
theorem get_all_pagination_window (db : List UserModel) (qp : UsersQuerySchema) (L O : Nat)
    (hL : qp.limit = some L) (hO : qp.offset = some O) :
    (pageOf qp db).length = min L ((db.filter (UserRepository.queryPred qp)).length - O)
    ∧ List.Sorted (createdLE qp.asc) (pageOf qp db)
    ∧ (0 < min L ((db.filter (UserRepository.queryPred qp)).length - O) →
        ∃ res, BaseService.get_all db qp = .ok res
          ∧ res.data.length
              = min L ((db.filter (UserRepository.queryPred qp)).length - O)
          ∧ res.count = (db.filter (UserRepository.queryPred qp)).length
          ∧ res.data = (pageOf qp db).map UserGetAdminSchema.model_validate)
    ∧ (min L ((db.filter (UserRepository.queryPred qp)).length - O) = 0 →
        BaseService.get_all db qp = .error .notFound) := by
  have hpage : pageOf qp db
      = ((List.insertionSort (createdLE qp.asc)
          (db.filter (UserRepository.queryPred qp))).drop O).take L := by
    unfold pageOf BaseRepository.get_all_with_pagination_from_stmt
      BaseRepository.applyPagination UserRepository.get_stmt_by_query
    rw [hL, hO]
    rfl
  have hlen : (pageOf qp db).length
      = min L ((db.filter (UserRepository.queryPred qp)).length - O) := by
    rw [hpage, List.length_take, List.length_drop, List.length_insertionSort]
  refine ⟨hlen, ?_, ?_, ?_⟩
  · rw [hpage]
    exact List.Pairwise.sublist ((List.take_sublist _ _).trans (List.drop_sublist _ _))
      (List.sorted_insertionSort _ _)
  · intro hpos
    have hne : pageOf qp db ≠ [] := by
      intro hnil
      rw [hnil] at hlen
      simp only [List.length_nil] at hlen
      omega
    exact ⟨_, get_all_eq_ok db qp hne, by simpa [List.length_map] using hlen, rfl, rfl⟩
  · intro h0
    apply get_all_eq_error
    rw [h0] at hlen
    exact List.length_eq_zero.mp hlen

theorem get_all_pagination_window_witness :
    ∃ res, BaseService.get_all [uA, uAB, uB] qpWin = .ok res
      ∧ res.data.length = 2 ∧ res.count = 3 := by
  obtain ⟨res, h1, h2, h3, _⟩ :=
    (get_all_pagination_window [uA, uAB, uB] qpWin 2 1 rfl rfl).2.2.1 (by decide)
  refine ⟨res, h1, by rw [h2]; decide, by rw [h3]; decide⟩

/-- Inversion of a successful repository update: the committed table is the
conditional patch of every matching row, and exactly one matching row was
updated and returned. -/
theorem UserRepository.update_ok_inv (wpred : UserModel → Bool)
    (obj : UserUpdateRepositoryAdminSchema) (db : List UserModel) (u : UserModel)
    (ndb : List UserModel)
    (h : UserRepository.update wpred obj db = .ok (u, ndb)) :
    ndb = db.map (fun s => if wpred s then applyUpdate obj s else s)
    ∧ (db.filter wpred).map (applyUpdate obj) = [u] := by
  unfold UserRepository.update at h
  dsimp only at h
  split at h
  · exact absurd h (by simp)
  · split at h
    · exact absurd h (by simp)
    · rename_i u2 heq
      rw [Except.ok.injEq, Prod.mk.injEq] at h
      obtain ⟨hu2, hndb⟩ := h
      subst hu2
      exact ⟨hndb.symm, heq⟩
    · exact absurd h (by simp)

/-- Filtering by an identifier commutes with an identifier-preserving
conditional patch of the matching rows. -/
theorem filter_map_ite_id (id : Nat) (f : UserModel → UserModel)
    (hf : ∀ s, (f s).id = s.id) (db : List UserModel) :
    (db.map (fun s => if s.id == id then f s else s)).filter (fun s => s.id == id)
      = (db.filter (fun s => s.id == id)).map f := by
  induction db with
  | nil => rfl
  | cons a t ih =>
    by_cases h : a.id == id
    · simp only [List.map_cons, List.filter_cons, h, if_true, hf a, ih]
    · simp only [List.map_cons, List.filter_cons, h, if_false, ih]
      rw [if_neg (by simpa using h)]
      simp [h, ih]

/-- C1: after a successful service-level update of the record carrying the
identifier, every update-input field that was absent (unset) or explicitly
null leaves the stored value unchanged, and every explicitly-set non-null
field's stored value equals the new value. -/
theorem base_update_patch_fields (db : List UserModel) (id : Nat)
    (data : UserUpdateRepositoryAdminSchema) (r : UserModel)
    (hone : db.filter (fun s => s.id == id) = [r])
    (hok : ∃ out, (BaseService.update db id data).1 = .ok out) :
    ∃ r2, (BaseService.update db id data).2.filter (fun s => s.id == id) = [r2]
      ∧ ((data.email = .unset ∨ data.email = .null) → r2.email = r.email)
      ∧ (∀ v, data.email = .value v → r2.email = v)
      ∧ ((data.hashed_password = .unset ∨ data.hashed_password = .null) →
          r2.hashed_password = r.hashed_password)
      ∧ (∀ v, data.hashed_password = .value v → r2.hashed_password = v)
      ∧ ((data.is_admin = .unset ∨ data.is_admin = .null) → r2.is_admin = r.is_admin)
      ∧ (∀ v, data.is_admin = .value v → r2.is_admin = v) := by
  have hgb : BaseService.get_by_id db id = .ok (UserGetAdminSchema.model_validate r) := by
    simp [BaseService.get_by_id, BaseRepository.get_one_or_none,
      BaseRepository.one_or_none, hone]
  cases hu : UserRepository.update (fun s => s.id == id) data db with
  | error e =>
    exfalso
    obtain ⟨out, ho⟩ := hok
    unfold BaseService.update at ho
    rw [hgb] at ho
    dsimp only at ho
    rw [hu] at ho
    cases e <;> simp at ho
  | ok pr =>
    obtain ⟨u, ndb⟩ := pr
    obtain ⟨hndb, hmap⟩ := UserRepository.update_ok_inv _ _ _ _ _ hu
    have hstate : (BaseService.update db id data).2 = ndb := by
      unfold BaseService.update
      rw [hgb]
      dsimp only
      rw [hu]
    have hfilter : ndb.filter (fun s => s.id == id) = [applyUpdate data r] := by
      rw [hndb, filter_map_ite_id id (applyUpdate data) (fun s => rfl), hone]
      rfl
    refine ⟨applyUpdate data r, by rw [hstate, hfilter], ?_, ?_, ?_, ?_, ?_, ?_⟩
    · rintro (h | h) <;> simp [applyUpdate, FieldPatch.dump, h]
    · intro v h
      simp [applyUpdate, FieldPatch.dump, h]
    · rintro (h | h) <;> simp [applyUpdate, FieldPatch.dump, h]
    · intro v h
      simp [applyUpdate, FieldPatch.dump, h]
    · rintro (h | h) <;> simp [applyUpdate, FieldPatch.dump, h]
    · intro v h
      simp [applyUpdate, FieldPatch.dump, h]

theorem base_update_patch_fields_witness :
    ∃ r2, (BaseService.update [uA] 1
        { email := .value "z@x.com", hashed_password := .null, is_admin := .unset }).2.filter
          (fun s => s.id == 1) = [r2]
      ∧ r2.email = "z@x.com"
      ∧ r2.hashed_password = uA.hashed_password
      ∧ r2.is_admin = uA.is_admin := by
  obtain ⟨r2, hf, he1, he2, hp1, hp2, ha1, ha2⟩ :=
    base_update_patch_fields [uA] 1
      { email := .value "z@x.com", hashed_password := .null, is_admin := .unset } uA
      (by decide) ⟨⟨1, "z@x.com", false⟩, by decide⟩
  exact ⟨r2, hf, he2 "z@x.com" rfl, hp1 (Or.inr rfl), ha1 (Or.inl rfl)⟩

/-- C8: a `UserService.update` call whose input is a plain (non-admin)
`UserUpdateSchema` leaves the stored `is_admin` of every user — in
particular the targeted one — unchanged, whatever the outcome: the service
substitutes `is_admin=None` and the repository excludes null fields from the
patch. -/
theorem user_update_plain_preserves_is_admin (db : List UserModel) (user_id : Nat)
    (e p : Option String) :
    (UserService.update db user_id (.plain e p)).2.map (fun r => (r.id, r.is_admin))
      = db.map (fun r => (r.id, r.is_admin)) := by
  unfold UserService.update
  cases hg : BaseService.get_by_id db user_id with
  | error e2 => rfl
  | ok out =>
    dsimp only
    cases hu : UserRepository.update (fun r => r.id == user_id)
        (UserService.updateObjIn (.plain e p)) db with
    | error e3 => cases e3 <;> rfl
    | ok pr =>
      obtain ⟨u, ndb⟩ := pr
      obtain ⟨hndb, -⟩ := UserRepository.update_ok_inv _ _ _ _ _ hu
      dsimp only
      rw [hndb, List.map_map]
      refine List.map_congr_left ?_
      intro s hs
      by_cases h : s.id == user_id
      · simp only [Function.comp_apply, h, if_true]
        rfl
      · simp only [Function.comp_apply, h, Bool.false_eq_true, if_false]

/-- Full-outcome characterization of the service-level user create: a
primary-key or unique-email violation becomes a `ConflictException` wrapping
the violated constraint with the store unchanged; otherwise the hashed row
is committed. -/
theorem UserService.create_eq (db : List UserModel) (data : UserCreateSchema)
    (newId created_at : Nat) :
    UserService.create db data newId created_at =
      if db.any (fun r => r.id == newId) then (.error (.conflict "pk_users"), db)
      else if emailTaken data.email db then (.error (.conflict "uq_users_email"), db)
      else (.ok ⟨newId, data.email, false⟩,
            db ++ [⟨newId, data.email, HashService.generate data.password,
                    false, created_at⟩]) := by
  unfold UserService.create UserRepository.create
  cases h1 : db.any (fun r => r.id == newId) with
  | true => simp [h1]
  | false =>
    cases h2 : emailTaken data.email db with
    | true => simp [h1, h2]
    | false =>
      simp [h1, h2]
      rfl

/-- C5: every error a service-level create reports is a `ConflictError`
wrapping the violated constraint, and the store is then left exactly as
before the call (no partial record); a taken unique email value in
particular yields a `ConflictError`; when no constraint is violated the
hashed row is appended; and creating `dup@x.com` twice makes the second
call fail with `ConflictError` over the unique-email constraint, leaving
the first record alone. -/
theorem service_create_conflict (db : List UserModel) (data : UserCreateSchema)
    (newId created_at : Nat) :
    (∀ e, (UserService.create db data newId created_at).1 = .error e →
        (UserService.create db data newId created_at).2 = db ∧ ∃ c, e = .conflict c)
    ∧ (emailTaken data.email db = true →
        ∃ c, (UserService.create db data newId created_at).1 = .error (.conflict c)
          ∧ (UserService.create db data newId created_at).2 = db)
    ∧ ((db.any (fun r => r.id == newId) || emailTaken data.email db) = false →
        (UserService.create db data newId created_at).2
          = db ++ [⟨newId, data.email, HashService.generate data.password,
                    false, created_at⟩])
    ∧ ((UserService.create [] ⟨"dup@x.com", "pw"⟩ 1 0).1 = .ok ⟨1, "dup@x.com", false⟩
        ∧ UserService.create (UserService.create [] ⟨"dup@x.com", "pw"⟩ 1 0).2
            ⟨"dup@x.com", "pw2"⟩ 2 1
          = (.error (.conflict "uq_users_email"),
             (UserService.create [] ⟨"dup@x.com", "pw"⟩ 1 0).2)) := by
  have hc := UserService.create_eq db data newId created_at
  refine ⟨?_, ?_, ?_, rfl, rfl⟩
  · intro e he
    by_cases h1 : db.any (fun r => r.id == newId) = true
    · have h3 : UserService.create db data newId created_at
          = (.error (.conflict "pk_users"), db) := by rw [hc, if_pos h1]
      rw [h3] at he
      rw [h3]
      injection he with h4
      exact ⟨rfl, "pk_users", h4.symm⟩
    · by_cases h2 : emailTaken data.email db = true
      · have h3 : UserService.create db data newId created_at
            = (.error (.conflict "uq_users_email"), db) := by
          rw [hc, if_neg h1, if_pos h2]
        rw [h3] at he
        rw [h3]
        injection he with h4
        exact ⟨rfl, "uq_users_email", h4.symm⟩
      · have h3 : (UserService.create db data newId created_at).1
            = .ok ⟨newId, data.email, false⟩ := by
          rw [hc, if_neg h1, if_neg h2]
        rw [h3] at he
        exact absurd he (by simp)
  · intro h2
    by_cases h1 : db.any (fun r => r.id == newId) = true
    · exact ⟨"pk_users", by rw [hc, if_pos h1]; exact ⟨rfl, rfl⟩⟩
    · exact ⟨"uq_users_email", by rw [hc, if_neg h1, if_pos h2]; exact ⟨rfl, rfl⟩⟩
  · intro h12
    rw [Bool.or_eq_false_iff] at h12
    rw [hc, if_neg (by rw [h12.1]; exact Bool.false_ne_true),
      if_neg (by rw [h12.2]; exact Bool.false_ne_true)]

theorem service_create_conflict_witness :
    ∃ c, (UserService.create [uA] ⟨"a@x.com", "pw"⟩ 9 5).1 = .error (.conflict c)
      ∧ (UserService.create [uA] ⟨"a@x.com", "pw"⟩ 9 5).2 = [uA] :=
  (service_create_conflict [uA] ⟨"a@x.com", "pw"⟩ 9 5).2.1 (by decide)

/-- Under the unique-email store invariant, criteria that pin the email
match at most one row. -/
theorem filter_le_one_of_uniqueEmails (db : List UserModel)
    (huniq : uniqueEmails db = true) (p : UserModel → Bool) (e : String)
    (hp : ∀ r, p r = true → r.email = e) :
    (db.filter p).length ≤ 1 := by
  induction db with
  | nil => simp
  | cons a t ih =>
    unfold uniqueEmails at huniq
    rw [Bool.and_eq_true] at huniq
    obtain ⟨ha, ht⟩ := huniq
    by_cases hpa : p a = true
    · rw [List.filter_cons_of_pos hpa]
      have hnil : t.filter p = [] := by
        rw [List.filter_eq_nil_iff]
        intro b hb hpb
        have htaken : emailTaken a.email t = true := by
          unfold emailTaken
          rw [List.any_eq_true]
          refine ⟨b, hb, ?_⟩
          rw [hp b hpb, hp a hpa]
          exact beq_self_eq_true e
        rw [htaken] at ha
        exact absurd ha (by simp)
      rw [hnil]
      simp
    · rw [List.filter_cons_of_neg (by simpa using hpa)]
      exact ih ht

/-- C9: `AuthService.login` issues tokens exactly when some stored user row
carries the supplied email together with a `hashed_password` equal to
`HashService.generate` of the supplied password (the lowercase hex SHA-256
digest of its UTF-8 bytes); in every other case — unknown email and wrong
password alike — it fails with the same `NotFoundError`. -/
theorem auth_login_iff (db : List UserModel) (schema : UserLoginSchema)
    (huniq : uniqueEmails db = true) :
    ((∃ t, AuthService.login db schema = .ok t) ↔
      ∃ r ∈ db, r.email = schema.email
        ∧ r.hashed_password = HashService.generate schema.password)
    ∧ ((¬ ∃ r ∈ db, r.email = schema.email
          ∧ r.hashed_password = HashService.generate schema.password) →
        AuthService.login db schema = .error .notFound) := by
  have hp : ∀ r, loginPred schema r = true → r.email = schema.email := by
    intro r h
    unfold loginPred at h
    rw [Bool.and_eq_true, beq_iff_eq, beq_iff_eq] at h
    exact h.1
  have hle := filter_le_one_of_uniqueEmails db huniq (loginPred schema) schema.email hp
  constructor
  · constructor
    · rintro ⟨t, ht⟩
      unfold AuthService.login BaseRepository.get_one_or_none at ht
      cases hfil : db.filter (loginPred schema) with
      | nil =>
        rw [hfil] at ht
        exact absurd ht (by simp [BaseRepository.one_or_none])
      | cons a l =>
        cases l with
        | nil =>
          have ha : a ∈ db.filter (loginPred schema) := by
            rw [hfil]
            exact List.mem_cons_self a []
          rw [List.mem_filter] at ha
          obtain ⟨had, hap⟩ := ha
          unfold loginPred at hap
          rw [Bool.and_eq_true, beq_iff_eq, beq_iff_eq] at hap
          exact ⟨a, had, hap.1, hap.2⟩
        | cons b l2 =>
          rw [hfil] at hle
          simp at hle
    · rintro ⟨r, hrdb, hre, hrp⟩
      have hrf : r ∈ db.filter (loginPred schema) := by
        rw [List.mem_filter]
        refine ⟨hrdb, ?_⟩
        unfold loginPred
        rw [Bool.and_eq_true, beq_iff_eq, beq_iff_eq]
        exact ⟨hre, hrp⟩
      cases hfil : db.filter (loginPred schema) with
      | nil =>
        rw [hfil] at hrf
        simp at hrf
      | cons a l =>
        cases l with
        | nil =>
          refine ⟨⟨a.id⟩, ?_⟩
          unfold AuthService.login BaseRepository.get_one_or_none
          rw [hfil]
          rfl
        | cons b l2 =>
          rw [hfil] at hle
          simp at hle
  · intro hno
    cases hfil : db.filter (loginPred schema) with
    | nil =>
      unfold AuthService.login BaseRepository.get_one_or_none
      rw [hfil]
      rfl
    | cons a l =>
      exfalso
      have ha : a ∈ db.filter (loginPred schema) := by
        rw [hfil]
        exact List.mem_cons_self a l
      rw [List.mem_filter] at ha
      obtain ⟨had, hap⟩ := ha
      unfold loginPred at hap
      rw [Bool.and_eq_true, beq_iff_eq, beq_iff_eq] at hap
      exact hno ⟨a, had, hap.1, hap.2⟩

theorem auth_login_iff_witness :
    ∃ t, AuthService.login loginDb ⟨"a@x.com", "pw"⟩ = .ok t :=
  (auth_login_iff loginDb ⟨"a@x.com", "pw"⟩ (by decide)).1.mpr
    ⟨⟨1, "a@x.com", HashService.generate "pw", false, 0⟩, by simp [loginDb], rfl, rfl⟩

/-- C6: with a non-empty field-to-substring map, a record is selected (and
counted) iff it satisfies the other filters AND the OR across the listed
fields of the per-field case-insensitive substring conditions; every record
of a fetched page comes from that selection; and over stored emails
`a@x.com`, `ab@x.com`, `b@x.com` the substring filter email-contains-`a`
selects exactly those two with count 2, case-insensitively. -/
theorem ilike_or_selection (search_fields : List (UserTextField × String))
    (pred : UserModel → Bool) (db : List UserModel) (offset limit : Nat)
    (hne : search_fields ≠ []) :
    (∀ r, r ∈ UserRepository.ilikeFilter search_fields pred db ↔
        (r ∈ db ∧ pred r = true
          ∧ ∃ fv ∈ search_fields, ilikeContains (fv.1.get r) fv.2 = true))
    ∧ UserRepository.count_all_ilike search_fields pred db
        = (db.filter (fun r => pred r
            && search_fields.any (fun fv => ilikeContains (fv.1.get r) fv.2))).length
    ∧ (∀ r, r ∈ UserRepository.get_all_ilike search_fields offset limit pred db →
        r ∈ UserRepository.ilikeFilter search_fields pred db)
    ∧ UserRepository.get_all_ilike [(.email, "a")] 0 100 (fun _ => true) [uA, uAB, uB]
        = [uA, uAB]
    ∧ UserRepository.count_all_ilike [(.email, "a")] (fun _ => true) [uA, uAB, uB] = 2
    ∧ ilikeContains "Ab@X.com" "b@x" = true := by
  have hie : search_fields.isEmpty = false := by
    cases search_fields with
    | nil => exact absurd rfl hne
    | cons a t => rfl
  refine ⟨?_, ?_, ?_, by decide, by decide, by decide⟩
  · intro r
    unfold UserRepository.ilikeFilter
    rw [List.mem_filter]
    simp [hie, List.any_eq_true]
  · unfold UserRepository.count_all_ilike UserRepository.ilikeFilter
    congr 1
    apply List.filter_congr
    intro a ha
    simp [hie]
  · intro r hr
    unfold UserRepository.get_all_ilike at hr
    exact List.mem_of_mem_drop (List.mem_of_mem_take hr)

theorem ilike_or_selection_witness :
    uAB ∈ UserRepository.ilikeFilter [(.email, "a")] (fun _ => true) [uA, uAB, uB] :=
  ((ilike_or_selection [(.email, "a")] (fun _ => true) [uA, uAB, uB] 0 100
      (by decide)).1 uAB).mpr
    ⟨by decide, rfl, ⟨(.email, "a"), by decide, by decide⟩⟩
